import Mathlib

/-!
Verification development for the VisionTalk repository
(per-session capture → analyze → speak pipeline).

Each definition below is a shallow embedding of a function of the
TypeScript source, translated 1:1 from the file and line range noted in
its doc comment.  JavaScript numbers that the code keeps as 32-bit
integers (via `|= 0`) are modelled as `Int` with explicit wrapping;
timestamps and durations are `Nat` compared over `Int` where the source
subtracts; fallible async calls are modelled as `Except` values supplied
by the environment (device stubs); mutation of per-user state objects is
modelled by explicit state passing.
-/

set_option maxRecDepth 10000

/- ═══════════════════════ DEFINITIONS ═══════════════════════ -/

/- ── services/photos.ts ───────────────────────────────────────────── -/

/-- A captured photo as delivered by the camera collaborator
(`PhotoData` in `@mentra/sdk`).  The raw byte buffer and derived sha256
are opaque to every claim checked here and are omitted; `requestId` is
modelled as `Nat` (only identity matters). -/
structure PhotoData where
  requestId : Nat
  timestamp : Nat
  mimeType : String
  size : Nat
  deriving DecidableEq, Repr

/-- A photo stored in a per-user history (`StoredPhoto` in `types.ts`,
byte buffer and sha256 omitted as above). -/
structure StoredPhoto where
  requestId : Nat
  timestamp : Nat
  userId : String
  mimeType : String
  size : Nat
  deriving DecidableEq, Repr

/-- `cachePhoto` from `src/VisionTalk/src/services/photos.ts` lines 5-21:
builds a `StoredPhoto` from the photo, pushes it onto
`userState.photoHistory`, and if the history length now exceeds 10
removes the first (oldest) element (`Array.prototype.shift`).  Returns
the stored record and the updated history. -/
def cachePhoto (photo : PhotoData) (userId : String) (photoHistory : List StoredPhoto) :
    StoredPhoto × List StoredPhoto :=
  let stored : StoredPhoto :=
    { requestId := photo.requestId
      timestamp := photo.timestamp
      userId := userId
      mimeType := photo.mimeType
      size := photo.size }
  let pushed := photoHistory ++ [stored]
  (stored, if pushed.length > 10 then pushed.tail else pushed)

/-- History produced by inserting each photo of a list in order,
starting from a given history (the per-user `photoHistory` field). -/
def cacheAll (userId : String) (photos : List PhotoData) (init : List StoredPhoto) :
    List StoredPhoto :=
  photos.foldl (fun hist p => (cachePhoto p userId hist).2) init

/-- Photo number `i` of the C9 test scenario. -/
def testPhoto (i : Nat) : PhotoData :=
  { requestId := i, timestamp := i, mimeType := "image/jpeg", size := 1 }

/-- The stored record `cachePhoto` produces for `testPhoto i`. -/
def testStored (userId : String) (i : Nat) : StoredPhoto :=
  (cachePhoto (testPhoto i) userId []).1

/- ── services/camera.ts ────────────────────────────────────────────── -/

/-- JavaScript `String.prototype.includes` on character lists: `sub`
occurs contiguously in the argument. -/
def hasSubstr (sub : List Char) : List Char → Bool
  | [] => sub.isEmpty
  | c :: t => sub.isPrefixOf (c :: t) || hasSubstr sub t

/-- `msg.includes('permission') || msg.includes('not_available')` — the
terminal-failure test of `requestPhotoRobust`
(`src/VisionTalk/src/services/camera.ts` line 67). -/
def isTerminalMsg (msg : String) : Bool :=
  hasSubstr "permission".data msg.data || hasSubstr "not_available".data msg.data

/-- Result of a robust capture: the returned photo or thrown error, how
many capture attempts were issued, and the backoff sleeps performed
between consecutive attempts (in order). -/
structure RobustResult where
  result : Except String PhotoData
  attemptsMade : Nat
  sleeps : List Nat
  deriving Repr

/-- The retry loop of `requestPhotoRobust`
(`src/VisionTalk/src/services/camera.ts` lines 54-72), with the capture
device (including its timeout race, `requestPhotoWithTimeout`) supplied
as a stub mapping the 1-based attempt number to its outcome.
`i` is the 0-based loop index, `r` the remaining iterations
(`r = attempts - i` at every call), `lastErr` the last observed error.
On a terminal message (`permission`/`not_available`) the loop breaks
and throws the last error; otherwise, when attempts remain
(`i < attempts - 1`, i.e. `0 < r - 1`), it sleeps `backoffMs * (i + 1)`
before the next attempt. -/
def robustGo (stub : Nat → Except String PhotoData) (attempts backoffMs : Nat) :
    Nat → Nat → Option String → List Nat → RobustResult
  | _, 0, lastErr, sleeps =>
    { result := .error (lastErr.getD "photo_request_failed_all_attempts")
      attemptsMade := attempts
      sleeps := sleeps }
  | i, r + 1, _, sleeps =>
    match stub (i + 1) with
    | .ok photo => { result := .ok photo, attemptsMade := i + 1, sleeps := sleeps }
    | .error msg =>
      if isTerminalMsg msg then
        { result := .error msg, attemptsMade := i + 1, sleeps := sleeps }
      else
        robustGo stub attempts backoffMs (i + 1) r (some msg)
          (if 0 < r then sleeps ++ [backoffMs * (i + 1)] else sleeps)

/-- `requestPhotoRobust` from `src/VisionTalk/src/services/camera.ts`
lines 38-73: fails immediately when the device reports no camera,
otherwise runs the bounded retry loop.  The caller in `index.ts`
resolves the option defaults to `attempts = 3`, `backoffMs = 750`. -/
def requestPhotoRobust (hasCamera : Bool) (stub : Nat → Except String PhotoData)
    (attempts backoffMs : Nat) : RobustResult :=
  if !hasCamera then
    { result := .error "camera_not_available", attemptsMade := 0, sleeps := [] }
  else
    robustGo stub attempts backoffMs 0 attempts none []

/- ── services/tts.ts — speakWithEvent (src/unnamed/part_002) ───────── -/

/-- JavaScript `|= 0`: wrap an integer to signed 32-bit. -/
def toInt32 (x : Int) : Int := (x + 2 ^ 31) % 2 ^ 32 - 2 ^ 31

/-- One step of `simpleHash` (part_002 lines 77-84):
`h = ((h << 5) - h) + input.charCodeAt(i); h |= 0`.  The shift operates
on the int32 value of `h` and itself wraps to int32. -/
def simpleHashStep (h : Int) (c : Char) : Int :=
  toInt32 (toInt32 (h * 32) - h + c.toNat)

/-- `simpleHash` from part_002 lines 77-84, folded over the text from
`h = 0`.  The source returns `String(h)`; since that conversion is
injective on int32 values we keep the numeric value. -/
def simpleHash (s : String) : Int := s.data.foldl simpleHashStep 0

/-- Synthesis parameters (`VoiceConfig` in `types.ts`; the numeric
`voice_settings` sub-record is never inspected by the dispatcher and is
omitted). -/
structure VoiceConfig where
  voice_id : Option String
  model_id : Option String
  deriving DecidableEq, Repr

/-- The duplicate-suppression fields of the per-user state
(`UserState.lastTTSHash`, `UserState.lastTTSAt` in `types.ts`; a fresh
state has `lastTTSHash = null`, `lastTTSAt = 0`). -/
structure TtsState where
  lastTTSHash : Option Int
  lastTTSAt : Nat
  deriving DecidableEq, Repr

/-- Result shape of `session.audio.speak`. The synthetic suppressed
result of part_002 line 25 is `{ success := true, suppressed := true }`. -/
structure SpeakResult where
  success : Bool
  suppressed : Bool
  deriving DecidableEq, Repr

/-- Observable outcome of one `speakWithEvent` call: the updated
suppression state, the device speak calls actually performed (device
I/O), the `recordEvent` stages emitted, and the returned or thrown
value. -/
structure SpeakOutcome where
  state : TtsState
  deviceCalls : List (String × VoiceConfig)
  events : List String
  result : Except String SpeakResult
  deriving Repr

/-- Default of `ENV.AUDIO_DUPLICATE_SUPPRESS_MS` (`config.ts` line 28). -/
def AUDIO_DUPLICATE_SUPPRESS_MS : Nat := 1200

/-- `speakWithEvent` from src/unnamed/part_002 lines 8-42.  The JS
suppression test is
`state.lastTTSAt && (now - state.lastTTSAt) < suppressWindowMs
 && state.lastTTSHash === hash`
(a zero timestamp is falsy, so a fresh state never suppresses); when it
holds the call returns the synthetic success with no device I/O and the
state untouched.  Otherwise the source first assigns
`state.lastTTSAt = now; state.lastTTSHash = hash` and only then performs
`session.audio.speak`, whose outcome `device` is rethrown on failure. -/
def speakWithEvent (text : String) (voiceConfig : VoiceConfig) (now : Nat)
    (suppressWindowMs : Nat) (device : Except String SpeakResult)
    (state : TtsState) (tag : String) : SpeakOutcome :=
  if state.lastTTSAt ≠ 0 ∧ (now : Int) - (state.lastTTSAt : Int) < (suppressWindowMs : Int)
      ∧ state.lastTTSHash = some (simpleHash text) then
    { state := state
      deviceCalls := []
      events := [tag ++ "_suppressed"]
      result := .ok { success := true, suppressed := true } }
  else
    match device with
    | .ok res =>
      { state := { lastTTSHash := some (simpleHash text), lastTTSAt := now }
        deviceCalls := [(text, voiceConfig)]
        events := [tag ++ "_start", tag ++ "_done"]
        result := .ok res }
    | .error e =>
      { state := { lastTTSHash := some (simpleHash text), lastTTSAt := now }
        deviceCalls := [(text, voiceConfig)]
        events := [tag ++ "_start", tag ++ "_error"]
        result := .error e }

/-- A fresh suppression state (`lastTTSHash: null, lastTTSAt: 0`,
`ensureUserState` in index.ts line 270). -/
def ttsClean : TtsState := { lastTTSHash := none, lastTTSAt := 0 }

/-- Modelled from the spec: the fingerprint the specification describes
is computed "over (text + synthesis parameters)"; the canonical such
fingerprint is the pair itself.  Used only to state what claim C4
asserts, for comparison with the source, whose hash covers the text
alone. -/
def specFingerprint (text : String) (voiceConfig : VoiceConfig) : String × VoiceConfig :=
  (text, voiceConfig)

/- ── services/tts.ts — chunkText (src/unnamed/part_002) ────────────── -/

/-- Whitespace as recognized by JavaScript `String.prototype.trim`
(ASCII portion; the TTS texts involved contain no exotic Unicode
whitespace). -/
def jsWhitespace (c : Char) : Bool :=
  c == ' ' || c == '\t' || c == '\n' || c == '\r' || c == '\x0b' || c == '\x0c'

/-- JavaScript `trim` on a character list: strip leading and trailing
whitespace. -/
def trimChars (l : List Char) : List Char :=
  ((l.dropWhile jsWhitespace).reverse.dropWhile jsWhitespace).reverse

/-- JavaScript `s.lastIndexOf('.', pos)`: the greatest index `i ≤ pos`
at which a period occurs, if any (the source compares the `-1` miss
value away, so a miss is `none` here). -/
def lastIndexOfDot (s : List Char) (pos : Nat) : Option Nat :=
  let pre := s.take (pos + 1)
  let j := pre.reverse.indexOf '.'
  if j < pre.length then some (pre.length - 1 - j) else none

/-- The end boundary picked by one iteration of the `chunkText` loop
(part_002 lines 66-72): `end = min(start + maxLen, s.length)`, then if
`s.lastIndexOf('.', end)` finds a period strictly beyond
`start + maxLen * 0.6` the boundary moves to just past that period.
The float threshold `maxLen * 0.6` is modelled exactly as the rational
`3 * maxLen / 5` (comparison `period > start + maxLen * 0.6` becomes
`5 * period > 5 * start + 3 * maxLen`); for the chunk sizes the source
uses (350, 450) the double rounds to the same comparisons. -/
def chunkEnd (s : List Char) (maxLen start : Nat) : Nat :=
  match lastIndexOfDot s (min (start + maxLen) s.length) with
  | some p => if 5 * p > 5 * start + 3 * maxLen then p + 1
              else min (start + maxLen) s.length
  | none => min (start + maxLen) s.length

/-- The `while (start < s.length)` loop of `chunkText` (part_002 lines
65-73), pushing `s.slice(start, end).trim()` each round.  With
`maxLen ≥ 1` every round advances `start`, so fuel `s.length` runs the
loop to completion; with `maxLen = 0` the JS loop never terminates, and
no claim concerns that degenerate parameter. -/
def chunkLoop (s : List Char) (maxLen : Nat) : Nat → Nat → List (List Char)
  | _, 0 => []
  | start, fuel + 1 =>
    if start < s.length then
      trimChars ((s.drop start).take (chunkEnd s maxLen start - start))
        :: chunkLoop s maxLen (chunkEnd s maxLen start) fuel
    else []

/-- `chunkText` from src/unnamed/part_002 lines 61-75: empty string to
the empty list, short strings returned whole, otherwise the slicing
loop followed by `parts.filter(Boolean)` (dropping chunks trimmed to
the empty string). -/
def chunkTextL (s : List Char) (maxLen : Nat) : List (List Char) :=
  if s.length = 0 then []
  else if s.length ≤ maxLen then [s]
  else (chunkLoop s maxLen 0 s.length).filter (fun c => !c.isEmpty)

/-- String-level wrapper of `chunkTextL`. -/
def chunkText (s : String) (maxLen : Nat) : List String :=
  (chunkTextL s.data maxLen).map (fun l => String.mk l)

/-- Terminal punctuation of the specification chunking algorithm
(step 2). -/
def isTerminalPunct (c : Char) : Bool := c == '.' || c == '!' || c == '?'

/-- Modelled from the spec: step 1 of the chunking algorithm, "normalize
internal whitespace runs to single spaces" (the flag records whether the
previous character was whitespace).  Needed only to state claim C5,
whose exception clause speaks of sentences. -/
def normalizeWS : Bool → List Char → List Char
  | _, [] => []
  | prevWS, c :: t =>
    if jsWhitespace c then
      (if prevWS then [] else [' ']) ++ normalizeWS true t
    else c :: normalizeWS false t

/-- Modelled from the spec: step 2 of the chunking algorithm, "split
into sentence-like units using terminal punctuation followed by
whitespace as boundaries" (the accumulator holds the current unit
reversed).  It runs on step-1-normalized text, where every whitespace
run is a single space, so a boundary consumes exactly one character of
whitespace. -/
def splitSentences (acc : List Char) : List Char → List (List Char)
  | [] => if acc.isEmpty then [] else [acc.reverse]
  | [c] => [(c :: acc).reverse]
  | c :: d :: rest =>
    if isTerminalPunct c && jsWhitespace d then
      (acc.reverse ++ [c]) :: splitSentences [] rest
    else
      splitSentences (c :: acc) (d :: rest)

/-- Modelled from the spec: the sentence decomposition of a text per
steps 1-2 of the chunking algorithm. -/
def specSentences (s : String) : List String :=
  (splitSentences [] (normalizeWS false s.data)).map (fun l => String.mk l)

/- ── index.ts — onButtonPress handler (lines 108-130) ──────────────── -/

/-- Press kinds delivered by `session.events.onButtonPress`. -/
inductive PressType where
  | short
  | long
  deriving DecidableEq, Repr

/-- What one invocation of the button handler reports: whether the press
was accepted (guard passed and the pipeline was started) and the
settled value of the handler promise (`.error` = rejected). -/
structure HandlerOutcome where
  accepted : Bool
  result : Except String Unit
  deriving Repr

/-- One invocation of the `onButtonPress` handler
(`src/VisionTalk/src/index.ts` lines 108-130) for a given session
state, with the pipeline body (`handleCaptureOnly` /
`handlePhotoAndAnalysis`) and the apology speak of the catch block
(line 126) supplied as outcomes.  Translated control flow:
non-short presses return at once; if `state.isProcessing` the press is
ignored with no queuing; otherwise the flag is set, the pipeline runs
under `try`, a pipeline exception is caught and answered with the
apology speak — whose own exception is NOT caught and rejects the
handler — and the `finally` block clears the flag on every path.
Returns (final value of `state.isProcessing`, outcome).  The guard
check and the flag assignment (lines 112-117) run synchronously with no
intervening `await`, hence as one atomic step of the event loop. -/
def onButtonPressRun (pressType : PressType) (isProcessing : Bool)
    (pipeline : Except String Unit) (apologySpeak : Except String Unit) :
    Bool × HandlerOutcome :=
  if pressType ≠ PressType.short then
    (isProcessing, { accepted := false, result := .ok () })
  else if isProcessing then
    (isProcessing, { accepted := false, result := .ok () })
  else
    match pipeline with
    | .ok () => (false, { accepted := true, result := .ok () })
    | .error _ =>
      match apologySpeak with
      | .ok () => (false, { accepted := true, result := .ok () })
      | .error a => (false, { accepted := true, result := .error a })

/-- Session-level view of the guard: the `processing` flag together with
the number of pipeline runs currently executing (a run is executing
from guard acceptance until its `finally` block). -/
structure PipeState where
  processing : Bool
  activeRuns : Nat
  deriving DecidableEq, Repr

/-- Events observable at one session: a button press of some kind, or an
executing run reaching its `finally` block (success, caught error, or
rejected apology alike). -/
inductive PipeEvent where
  | press (pt : PressType)
  | runFinish
  deriving DecidableEq, Repr

/-- The fresh session state (`ensureUserState`, index.ts line 270). -/
def pipeInit : PipeState := { processing := false, activeRuns := 0 }

/-- Session transition per event, from the handler code: a short press
with the flag clear atomically sets it and starts a run (accepted = the
returned Bool); any other press is ignored and changes nothing; a
finishing run executes `state.isProcessing = false` (index.ts line 128).
`runFinish` with no active run cannot occur and is a no-op. -/
def pipeStep (st : PipeState) (ev : PipeEvent) : PipeState × Bool :=
  match ev with
  | .press pt =>
    if pt = PressType.short ∧ st.processing = false then
      ({ processing := true, activeRuns := st.activeRuns + 1 }, true)
    else (st, false)
  | .runFinish =>
    if st.activeRuns = 0 then (st, false)
    else ({ processing := false, activeRuns := st.activeRuns - 1 }, false)

/-- The session state after a sequence of events from the fresh state. -/
def pipeRun (evs : List PipeEvent) : PipeState :=
  evs.foldl (fun st ev => (pipeStep st ev).1) pipeInit

/-- The mutual-exclusion invariant: at most one run executes, and the
flag is set exactly while one does. -/
def pipeInv (st : PipeState) : Prop :=
  st.activeRuns ≤ 1 ∧ (st.processing = true ↔ st.activeRuns = 1)

/- ── index.ts — withAudioQueue (lines 277-293) ─────────────────────── -/

/-- Observable audio events: `recordEvent('audio_queue_enter')` /
`audio_queue_exit` (index.ts lines 284, 290), and the start and
completion of the submitted operation `fn` itself (e.g. the device
speak call), indexed by submission number. -/
inductive AudioEv where
  | queueEnter (i : Nat)
  | opStart (i : Nat)
  | opEnd (i : Nat)
  | queueExit (i : Nat)
  deriving DecidableEq, Repr

/-- A cooperative async computation over promises identified by `Nat`:
it can emit an observable event, suspend until a promise resolves
(`await p`), resolve a promise (calling a stored `resolve` callback),
or register another computation (`.then` reaction / detached chain
promise) with the event loop. -/
inductive ATask where
  | done
  | emit (e : AudioEv) (k : ATask)
  | awaitP (p : Nat) (k : ATask)
  | resolveP (p : Nat) (k : ATask)
  | spawn (t : ATask) (k : ATask)
  deriving Repr

/-- Event-loop state: the runnable queue (in order), tasks blocked on a
promise, the set of resolved promises, and the emitted trace. -/
structure Sched where
  queue : List ATask
  blocked : List (Nat × ATask)
  resolved : List Nat
  trace : List AudioEv
  deriving Repr

/-- One step of the cooperative event loop: run one instruction of the
front task.  Awaiting an unresolved promise parks the task; resolving a
promise moves its waiters to the back of the runnable queue (JS queues
promise reactions in FIFO order); a spawned reaction also goes to the
back. -/
def schedStep (st : Sched) : Sched :=
  match st.queue with
  | [] => st
  | t :: rest =>
    match t with
    | .done => { st with queue := rest }
    | .emit e k => { st with queue := k :: rest, trace := st.trace ++ [e] }
    | .awaitP p k =>
      if st.resolved.contains p then { st with queue := k :: rest }
      else { st with queue := rest, blocked := st.blocked ++ [(p, k)] }
    | .resolveP p k =>
      { st with
        queue := k :: rest ++ (st.blocked.filter (fun b => b.1 = p)).map (·.2)
        blocked := st.blocked.filter (fun b => b.1 ≠ p)
        resolved := p :: st.resolved }
    | .spawn t2 k => { st with queue := k :: rest ++ [t2] }

/-- Run the event loop for a bounded number of steps. -/
def schedRun : Nat → Sched → Sched
  | 0, st => st
  | n + 1, st => schedRun n (schedStep st)

/-- A submitted audio operation (the `fn` passed to `withAudioQueue`,
e.g. `speakWithEvent`): it starts executing, performs its device I/O —
modelled as awaiting the device-completion promise `devP` — and
finishes. -/
def audioOp (i devP : Nat) (k : ATask) : ATask :=
  .emit (.opStart i) (.awaitP devP (.emit (.opEnd i) k))

/-- One call `withAudioQueue(userId, fn)` (index.ts lines 277-293),
compiled statement by statement for submission number `i`.
`prevChainP` is the promise read from `state.audioChain`, `nextP` the
fresh `next` promise, `newChainP` the promise produced by
`prev.then(() => next)` and stored back into `state.audioChain` — a
reaction that the source never awaits before invoking `fn`, modelled
faithfully as a spawned waiter.  The body then records
`audio_queue_enter`, invokes `fn()` IMMEDIATELY (running it to its
first suspension, exactly like `await fn()` in JS), awaits the 100ms
settle timer `settleP`, and in the `finally` records
`audio_queue_exit` and calls `resolveNext()`. -/
def withAudioQueueTask (i prevChainP nextP newChainP devP settleP : Nat) : ATask :=
  .spawn (.awaitP prevChainP (.awaitP nextP (.resolveP newChainP .done)))
    (.emit (.queueEnter i)
      (audioOp i devP
        (.awaitP settleP
          (.emit (.queueExit i) (.resolveP nextP .done)))))

/-- The P2 scenario: two audio operations submitted back-to-back for
one user while the device is still busy.  Promises: 0 = the initial
resolved `state.audioChain` (`Promise.resolve()`), 1/2 = the `next`
promises of submissions 1/2, 3/4 = the chain promises stored by
submissions 1/2 (submission 2 reads promise 3 as its `prev`), 5/6 = the
device completions of operations 1/2, 7/8 = the settle timers.  The
device completions and timers fire after both submissions, in order. -/
def audioScenario : Sched :=
  { queue :=
      [ withAudioQueueTask 1 0 1 3 5 7
      , withAudioQueueTask 2 3 2 4 6 8
      , .resolveP 5 .done
      , .resolveP 6 .done
      , .resolveP 7 .done
      , .resolveP 8 .done ]
    blocked := []
    resolved := [0]
    trace := [] }

/-- The trace the source code produces on the scenario (60 steps run
the loop to quiescence). -/
def audioCodeTrace : List AudioEv := (schedRun 60 audioScenario).trace

/- ════════════════════════ THEOREMS ═════════════════════════ -/

/-- Unfolding lemma: the history side of `cachePhoto` pushes the stored
record and drops the head exactly when the pushed length exceeds 10. -/
theorem cachePhoto_snd (photo : PhotoData) (uid : String) (hist : List StoredPhoto) :
    (cachePhoto photo uid hist).2 =
      if hist.length + 1 > 10 then (hist ++ [(cachePhoto photo uid hist).1]).tail
      else hist ++ [(cachePhoto photo uid hist).1] := by
  simp [cachePhoto]

/-- Claim C9: for every session, after any sequence of photo-cache
insertions the photoHistory never exceeds capacity 10 and eviction is
strictly oldest-first (each insertion keeps the newest suffix of the
pushed history); after inserting captures #1..#15 into an initially
empty history, the history holds exactly captures #6..#15 in capture
order. -/
theorem cachePhoto_bounded_oldest_first :
    (∀ (hist : List StoredPhoto) (p : PhotoData) (uid : String), hist.length ≤ 10 →
      (cachePhoto p uid hist).2.length ≤ 10 ∧
      (cachePhoto p uid hist).2 =
        (hist ++ [(cachePhoto p uid hist).1]).drop (hist.length + 1 - 10)) ∧
    cacheAll "u" ((List.range 15).map (fun i => testPhoto (i + 1))) [] =
      (List.range 10).map (fun i => testStored "u" (i + 6)) := by
  refine ⟨fun hist p uid hle => ?_, by decide⟩
  rw [cachePhoto_snd]
  by_cases h : hist.length + 1 > 10
  · have h10 : hist.length = 10 := by omega
    simp only [h, if_pos]
    constructor
    · simp [List.length_tail, h10]
    · rw [h10]
      simp [← List.drop_one]
  · have h0 : hist.length + 1 - 10 = 0 := by omega
    simp only [h, if_neg, not_false_iff, h0, List.drop_zero]
    constructor
    · simp only [List.length_append, List.length_singleton]
      omega
    · trivial

/-- Witness for C9: inserting an 11th photo into a full history of 10
keeps the length at 10. -/
theorem cachePhoto_bounded_oldest_first_witness :
    (cachePhoto (testPhoto 11) "u" ((List.range 10).map (fun i => testStored "u" (i + 1)))).2.length ≤ 10 := by
  exact (cachePhoto_bounded_oldest_first.1
    ((List.range 10).map (fun i => testStored "u" (i + 1))) (testPhoto 11) "u" (by decide)).1

/-- Claim C3: with a capture stub failing transiently on attempts 1 and
2 and succeeding on attempt 3, `attempts = 3` returns the photo after
exactly 3 attempts with linear-backoff sleeps `backoffMs * 1` then
`backoffMs * 2` between consecutive attempts; with a stub whose failure
message on attempt 1 signals a permission or permanently-unavailable
condition, the call fails after exactly 1 attempt (no sleeps) for every
configured `attempts ≥ 1`. -/
theorem requestPhotoRobust_retry_policy
    (stub : Nat → Except String PhotoData) (b : Nat) (m1 m2 : String) (p : PhotoData)
    (h1 : stub 1 = .error m1) (h2 : stub 2 = .error m2) (h3 : stub 3 = .ok p)
    (t1 : isTerminalMsg m1 = false) (t2 : isTerminalMsg m2 = false) :
    requestPhotoRobust true stub 3 b =
      { result := .ok p, attemptsMade := 3, sleeps := [b * 1, b * 2] } ∧
    ∀ (stub2 : Nat → Except String PhotoData) (n : Nat) (mp : String),
      1 ≤ n → stub2 1 = .error mp → isTerminalMsg mp = true →
      requestPhotoRobust true stub2 n b =
        { result := .error mp, attemptsMade := 1, sleeps := [] } := by
  constructor
  · simp [requestPhotoRobust, robustGo, h1, h2, h3, t1, t2]
  · intro stub2 n mp hn hs hterm
    obtain ⟨r, rfl⟩ : ∃ r, n = r + 1 := ⟨n - 1, by omega⟩
    simp [requestPhotoRobust, robustGo, hs, hterm]

/-- Witness for C3 at a concrete stub: timeouts on attempts 1 and 2,
success on attempt 3, backoff 750ms; and a permission failure with
`attempts = 3`. -/
theorem requestPhotoRobust_retry_policy_witness :
    requestPhotoRobust true
        (fun n => if n = 3 then .ok (testPhoto 42) else .error "photo_request_timeout")
        3 750 =
      { result := .ok (testPhoto 42), attemptsMade := 3, sleeps := [750 * 1, 750 * 2] } ∧
    requestPhotoRobust true (fun _ => .error "camera permission denied") 3 750 =
      { result := .error "camera permission denied", attemptsMade := 1, sleeps := [] } := by
  have h := requestPhotoRobust_retry_policy
    (fun n => if n = 3 then .ok (testPhoto 42) else .error "photo_request_timeout")
    750 "photo_request_timeout" "photo_request_timeout" (testPhoto 42)
    rfl rfl rfl (by decide) (by decide)
  exact ⟨h.1, h.2 (fun _ => .error "camera permission denied") 3 "camera permission denied"
    (by decide) rfl (by decide)⟩

/-- Helper: when the suppression condition holds, `speakWithEvent`
returns the synthetic success and performs no device I/O. -/
theorem speakWithEvent_suppressed_eq (text : String) (vc : VoiceConfig)
    (now window : Nat) (device : Except String SpeakResult) (st : TtsState) (tag : String)
    (hAt : st.lastTTSAt ≠ 0)
    (hWin : (now : Int) - (st.lastTTSAt : Int) < (window : Int))
    (hHash : st.lastTTSHash = some (simpleHash text)) :
    speakWithEvent text vc now window device st tag =
      { state := st
        deviceCalls := []
        events := [tag ++ "_suppressed"]
        result := .ok { success := true, suppressed := true } } := by
  unfold speakWithEvent
  rw [if_pos ⟨hAt, hWin, hHash⟩]

/-- Helper: when the suppression condition fails, `speakWithEvent`
overwrites the suppression state with the new hash and timestamp and
performs exactly one device speak call, whatever the device outcome. -/
theorem speakWithEvent_dispatch_eq (text : String) (vc : VoiceConfig)
    (now window : Nat) (device : Except String SpeakResult) (st : TtsState) (tag : String)
    (hNot : ¬(st.lastTTSAt ≠ 0 ∧ (now : Int) - (st.lastTTSAt : Int) < (window : Int)
      ∧ st.lastTTSHash = some (simpleHash text))) :
    (speakWithEvent text vc now window device st tag).state =
      { lastTTSHash := some (simpleHash text), lastTTSAt := now } ∧
    (speakWithEvent text vc now window device st tag).deviceCalls = [(text, vc)] := by
  unfold speakWithEvent
  rw [if_neg hNot]
  cases device <;> exact ⟨rfl, rfl⟩

/-- Claim C10: a suppressed speak call leaves the duplicate-suppression
state (fingerprint and timestamp) unchanged and performs no device I/O;
consequently a whole stream of identical requests, each within the
window of the most recent non-suppressed dispatch, leaves the state at
that dispatch and never extends the window. -/
theorem speakWithEvent_suppressed_frame (text : String) (vc : VoiceConfig)
    (now window : Nat) (device : Except String SpeakResult) (st : TtsState) (tag : String)
    (hAt : st.lastTTSAt ≠ 0)
    (hWin : (now : Int) - (st.lastTTSAt : Int) < (window : Int))
    (hHash : st.lastTTSHash = some (simpleHash text)) :
    (speakWithEvent text vc now window device st tag).state = st ∧
    (speakWithEvent text vc now window device st tag).deviceCalls = [] ∧
    ∀ times : List Nat,
      (∀ t ∈ times, (t : Int) - (st.lastTTSAt : Int) < (window : Int)) →
      times.foldl (fun s t => (speakWithEvent text vc t window device s tag).state) st = st := by
  refine ⟨?_, ?_, ?_⟩
  · rw [speakWithEvent_suppressed_eq text vc now window device st tag hAt hWin hHash]
  · rw [speakWithEvent_suppressed_eq text vc now window device st tag hAt hWin hHash]
  · intro times
    induction times with
    | nil => intro _; rfl
    | cons t ts ih =>
      intro hall
      have hstep := speakWithEvent_suppressed_eq text vc t window device st tag hAt
        (hall t (by simp)) hHash
      simp only [List.foldl_cons, hstep]
      exact ih fun u hu => hall u (by simp [hu])

/-- Witness for C10: an identical utterance 500ms after a dispatch at
t = 1000 (window 1200ms) is suppressed with the state untouched and no
device call. -/
theorem speakWithEvent_suppressed_frame_witness :
    (speakWithEvent "hi" ⟨none, none⟩ 1500 1200 (.ok ⟨true, false⟩)
        ⟨some (simpleHash "hi"), 1000⟩ "tts").state = ⟨some (simpleHash "hi"), 1000⟩ ∧
    (speakWithEvent "hi" ⟨none, none⟩ 1500 1200 (.ok ⟨true, false⟩)
        ⟨some (simpleHash "hi"), 1000⟩ "tts").deviceCalls = [] := by
  have h := speakWithEvent_suppressed_frame "hi" ⟨none, none⟩ 1500 1200 (.ok ⟨true, false⟩)
    ⟨some (simpleHash "hi"), 1000⟩ "tts" (by decide) (by decide) rfl
  exact ⟨h.1, h.2.1⟩

/-- Counterexample for C6 (claim: the fingerprint and timestamp are
updated only on completion of the speak call, so after a failed speak
both fields hold their previous values).  Starting from the fresh state
(`lastTTSHash = null`, `lastTTSAt = 0`), a call at t = 5000 whose device
speak fails still leaves the state holding the NEW hash and timestamp,
not the previous ones. -/
theorem speakWithEvent_failed_speak_updates_state :
    (speakWithEvent "hello" ⟨none, none⟩ 5000 1200 (.error "tts_failed") ttsClean "tts").result
        = .error "tts_failed" ∧
    (speakWithEvent "hello" ⟨none, none⟩ 5000 1200 (.error "tts_failed") ttsClean "tts").state.lastTTSAt
        = 5000 ∧
    (speakWithEvent "hello" ⟨none, none⟩ 5000 1200 (.error "tts_failed") ttsClean "tts").state.lastTTSHash
        = some (simpleHash "hello") ∧
    ttsClean.lastTTSAt ≠ 5000 ∧ ttsClean.lastTTSHash ≠ some (simpleHash "hello") := by
  refine ⟨rfl, rfl, rfl, by decide, by simp [ttsClean]⟩

/-- Claim C6 as amended: when a speak call is not suppressed, the
session fingerprint and timestamp are overwritten with the new values
BEFORE the device speak is performed, so they hold the new values
whether the speak succeeds or fails (after a failed speak they do not
hold the values they had before the call). -/
theorem speakWithEvent_state_updated_before_call (text : String) (vc : VoiceConfig)
    (now window : Nat) (device : Except String SpeakResult) (st : TtsState) (tag : String)
    (hNot : ¬(st.lastTTSAt ≠ 0 ∧ (now : Int) - (st.lastTTSAt : Int) < (window : Int)
      ∧ st.lastTTSHash = some (simpleHash text))) :
    (speakWithEvent text vc now window device st tag).state =
      { lastTTSHash := some (simpleHash text), lastTTSAt := now } ∧
    (speakWithEvent text vc now window device st tag).deviceCalls = [(text, vc)] := by
  exact speakWithEvent_dispatch_eq text vc now window device st tag hNot

/-- Witness for C6 (amended): failing speak at t = 5000 from the fresh
state leaves the new hash and timestamp in place. -/
theorem speakWithEvent_state_updated_before_call_witness :
    (speakWithEvent "hello" ⟨none, none⟩ 5000 1200 (.error "boom") ttsClean "tts").state =
      { lastTTSHash := some (simpleHash "hello"), lastTTSAt := 5000 } := by
  exact (speakWithEvent_state_updated_before_call "hello" ⟨none, none⟩ 5000 1200
    (.error "boom") ttsClean "tts" (by intro h; exact h.1 rfl)).1

/-- Counterexample for C4 (claim: the fingerprint covers the utterance
text PLUS the synthesis parameters).  Two requests with the same text
but different voice parameters 500ms apart: their spec fingerprints
differ, yet the second call is suppressed — no device I/O, a suppressed
event, a synthetic success — so the source cannot be fingerprinting the
parameters. -/
theorem speakWithEvent_params_not_fingerprinted :
    specFingerprint "hi" ⟨some "voiceA", none⟩ ≠ specFingerprint "hi" ⟨some "voiceB", none⟩ ∧
    (speakWithEvent "hi" ⟨some "voiceB", none⟩ 1500 1200 (.ok ⟨true, false⟩)
        (speakWithEvent "hi" ⟨some "voiceA", none⟩ 1000 1200 (.ok ⟨true, false⟩) ttsClean "tts").state
        "tts").deviceCalls = [] ∧
    (speakWithEvent "hi" ⟨some "voiceB", none⟩ 1500 1200 (.ok ⟨true, false⟩)
        (speakWithEvent "hi" ⟨some "voiceA", none⟩ 1000 1200 (.ok ⟨true, false⟩) ttsClean "tts").state
        "tts").events = ["tts_suppressed"] ∧
    (speakWithEvent "hi" ⟨some "voiceB", none⟩ 1500 1200 (.ok ⟨true, false⟩)
        (speakWithEvent "hi" ⟨some "voiceA", none⟩ 1000 1200 (.ok ⟨true, false⟩) ttsClean "tts").state
        "tts").result = .ok ⟨true, true⟩ := by
  exact ⟨by decide, rfl, rfl, rfl⟩

/-- Claim C4 as amended: the dispatcher fingerprint covers the utterance
text only.  From a fresh state, the first call always dispatches; a
second call with the SAME TEXT (any synthesis parameters) within the
window of the first is skipped entirely — no device I/O, a suppressed
diagnostic event, a synthetic success result — and a second call with a
gap of at least the window performs the speak call. -/
theorem speakWithEvent_suppression_text_only (text : String) (vc1 vc2 : VoiceConfig)
    (t1 t2 window : Nat) (d1 d2 : Except String SpeakResult) (tag1 tag2 : String)
    (h1 : 1 ≤ t1) :
    (speakWithEvent text vc1 t1 window d1 ttsClean tag1).deviceCalls = [(text, vc1)] ∧
    ((t2 : Int) - (t1 : Int) < (window : Int) →
      (speakWithEvent text vc2 t2 window d2
          (speakWithEvent text vc1 t1 window d1 ttsClean tag1).state tag2).deviceCalls = [] ∧
      (speakWithEvent text vc2 t2 window d2
          (speakWithEvent text vc1 t1 window d1 ttsClean tag1).state tag2).events
        = [tag2 ++ "_suppressed"] ∧
      (speakWithEvent text vc2 t2 window d2
          (speakWithEvent text vc1 t1 window d1 ttsClean tag1).state tag2).result
        = .ok { success := true, suppressed := true }) ∧
    ((window : Int) ≤ (t2 : Int) - (t1 : Int) →
      (speakWithEvent text vc2 t2 window d2
          (speakWithEvent text vc1 t1 window d1 ttsClean tag1).state tag2).deviceCalls
        = [(text, vc2)]) := by
  have hclean : ¬(ttsClean.lastTTSAt ≠ 0 ∧ (t1 : Int) - (ttsClean.lastTTSAt : Int) < (window : Int)
      ∧ ttsClean.lastTTSHash = some (simpleHash text)) := by
    intro h; exact h.1 rfl
  have hd := speakWithEvent_dispatch_eq text vc1 t1 window d1 ttsClean tag1 hclean
  refine ⟨hd.2, ?_, ?_⟩
  · intro hwin
    rw [speakWithEvent_suppressed_eq text vc2 t2 window d2 _ tag2
      (by rw [hd.1]; simpa using by omega) (by rw [hd.1]; simpa using hwin)
      (by rw [hd.1])]
    exact ⟨rfl, rfl, rfl⟩
  · intro hgap
    have hnot : ¬((speakWithEvent text vc1 t1 window d1 ttsClean tag1).state.lastTTSAt ≠ 0 ∧
        (t2 : Int) - ((speakWithEvent text vc1 t1 window d1 ttsClean tag1).state.lastTTSAt : Int)
          < (window : Int) ∧
        (speakWithEvent text vc1 t1 window d1 ttsClean tag1).state.lastTTSHash
          = some (simpleHash text)) := by
      rw [hd.1]
      intro h
      exact absurd h.2.1 (by simpa using hgap)
    exact (speakWithEvent_dispatch_eq text vc2 t2 window d2 _ tag2 hnot).2

/-- Witness for C4 (amended): text "hi", dispatch at t = 1000, repeats at
t = 1500 (suppressed) and, in a separate run, at t = 2500 (dispatched). -/
theorem speakWithEvent_suppression_text_only_witness :
    (speakWithEvent "hi" ⟨some "voiceB", none⟩ 1500 1200 (.ok ⟨true, false⟩)
        (speakWithEvent "hi" ⟨some "voiceA", none⟩ 1000 1200 (.ok ⟨true, false⟩) ttsClean "t1").state
        "t2").deviceCalls = [] ∧
    (speakWithEvent "hi" ⟨some "voiceB", none⟩ 2500 1200 (.ok ⟨true, false⟩)
        (speakWithEvent "hi" ⟨some "voiceA", none⟩ 1000 1200 (.ok ⟨true, false⟩) ttsClean "t1").state
        "t2").deviceCalls = [("hi", ⟨some "voiceB", none⟩)] := by
  have hA := speakWithEvent_suppression_text_only "hi" ⟨some "voiceA", none⟩ ⟨some "voiceB", none⟩
    1000 1500 1200 (.ok ⟨true, false⟩) (.ok ⟨true, false⟩) "t1" "t2" (by decide)
  have hB := speakWithEvent_suppression_text_only "hi" ⟨some "voiceA", none⟩ ⟨some "voiceB", none⟩
    1000 2500 1200 (.ok ⟨true, false⟩) (.ok ⟨true, false⟩) "t1" "t2" (by decide)
  exact ⟨(hA.2.1 (by decide)).1, hB.2.2 (by decide)⟩

/-- `dropWhile` never lengthens a list. -/
theorem dropWhile_len_le (p : Char → Bool) (l : List Char) :
    (l.dropWhile p).length ≤ l.length := by
  induction l with
  | nil => simp
  | cons c t ih =>
    by_cases h : p c
    · simp only [List.dropWhile_cons, h, if_pos, List.length_cons]
      omega
    · simp [List.dropWhile_cons, h]

/-- Trimming never lengthens a list. -/
theorem trimChars_len_le (l : List Char) : (trimChars l).length ≤ l.length := by
  unfold trimChars
  calc ((l.dropWhile jsWhitespace).reverse.dropWhile jsWhitespace).reverse.length
      = ((l.dropWhile jsWhitespace).reverse.dropWhile jsWhitespace).length := by
        rw [List.length_reverse]
    _ ≤ (l.dropWhile jsWhitespace).reverse.length := dropWhile_len_le _ _
    _ = (l.dropWhile jsWhitespace).length := by rw [List.length_reverse]
    _ ≤ l.length := dropWhile_len_le _ _

/-- `dropWhile` is the identity on a list none of whose members satisfy
the predicate. -/
theorem dropWhile_eq_self_of_all (p : Char → Bool) (l : List Char)
    (h : ∀ c ∈ l, p c = false) : l.dropWhile p = l := by
  cases l with
  | nil => rfl
  | cons c t => simp [List.dropWhile_cons, h c (by simp)]

/-- Trimming is the identity on whitespace-free lists. -/
theorem trimChars_eq_self_of_all (l : List Char)
    (h : ∀ c ∈ l, jsWhitespace c = false) : trimChars l = l := by
  unfold trimChars
  rw [dropWhile_eq_self_of_all _ _ h,
    dropWhile_eq_self_of_all _ _ (fun c hc => h c (List.mem_reverse.mp hc)),
    List.reverse_reverse]

/-- Trimming an all-whitespace list yields the empty list. -/
theorem trimChars_eq_nil_of_all (l : List Char)
    (h : ∀ c ∈ l, jsWhitespace c = true) : trimChars l = [] := by
  unfold trimChars
  rw [List.dropWhile_eq_nil_iff.mpr h]
  rfl

/-- A hit of `lastIndexOfDot s pos` lies at or before `pos` and inside
the list. -/
theorem lastIndexOfDot_bounds (s : List Char) (pos p : Nat)
    (h : lastIndexOfDot s pos = some p) : p ≤ pos ∧ p < s.length := by
  simp only [lastIndexOfDot] at h
  split at h
  · rename_i hj
    rw [Option.some.injEq] at h
    have h1 : (s.take (pos + 1)).length = min (pos + 1) s.length := List.length_take _ _
    omega
  · exact absurd h (by simp)

/-- The loop boundary never passes the end of the text. -/
theorem chunkEnd_le_length (s : List Char) (maxLen start : Nat) :
    chunkEnd s maxLen start ≤ s.length := by
  unfold chunkEnd
  split
  · rename_i p hp
    have hb := lastIndexOfDot_bounds _ _ _ hp
    split <;> omega
  · omega

/-- The loop boundary exceeds `start + maxLen` by at most one (the
overshoot happens exactly when the character at `start + maxLen` is a
period past the 0.6 threshold). -/
theorem chunkEnd_le_start_add (s : List Char) (maxLen start : Nat) :
    chunkEnd s maxLen start ≤ start + maxLen + 1 := by
  unfold chunkEnd
  split
  · rename_i p hp
    have hb := lastIndexOfDot_bounds _ _ _ hp
    split <;> omega
  · omega

/-- With `maxLen ≥ 1` and text remaining, the loop boundary advances. -/
theorem lt_chunkEnd (s : List Char) (maxLen start : Nat)
    (hs : start < s.length) (hm : 1 ≤ maxLen) : start < chunkEnd s maxLen start := by
  unfold chunkEnd
  split
  · rename_i p hp
    split <;> omega
  · omega

/-- Every chunk the loop produces has length at most `maxLen + 1`. -/
theorem chunkLoop_chunk_len (s : List Char) (maxLen : Nat) :
    ∀ fuel start c, c ∈ chunkLoop s maxLen start fuel → c.length ≤ maxLen + 1 := by
  intro fuel
  induction fuel with
  | zero => intro start c hc; simp [chunkLoop] at hc
  | succ n ih =>
    intro start c hc
    simp only [chunkLoop] at hc
    split at hc
    · rcases List.mem_cons.mp hc with rfl | hmem
      · calc (trimChars ((s.drop start).take (chunkEnd s maxLen start - start))).length
            ≤ ((s.drop start).take (chunkEnd s maxLen start - start)).length :=
              trimChars_len_le _
          _ ≤ chunkEnd s maxLen start - start := by
              rw [List.length_take]; omega
          _ ≤ maxLen + 1 := by
              have := chunkEnd_le_start_add s maxLen start
              omega
      · exact ih _ _ hmem
    · simp at hc

/-- On whitespace-free text the loop chunks concatenate back to the
unprocessed suffix. -/
theorem chunkLoop_flatten (s : List Char) (maxLen : Nat) (hm : 1 ≤ maxLen)
    (hws : ∀ c ∈ s, jsWhitespace c = false) :
    ∀ fuel start, s.length ≤ start + fuel →
      (chunkLoop s maxLen start fuel).flatten = s.drop start := by
  intro fuel
  induction fuel with
  | zero =>
    intro start h
    simp only [chunkLoop, List.flatten_nil]
    exact (List.drop_eq_nil_iff.mpr (by omega)).symm
  | succ n ih =>
    intro start h
    simp only [chunkLoop]
    split
    · rename_i hlt
      have hadv := lt_chunkEnd s maxLen start hlt hm
      rw [List.flatten_cons,
        trimChars_eq_self_of_all _
          (fun c hc => hws c (List.drop_subset _ _ (List.take_subset _ _ hc))),
        ih (chunkEnd s maxLen start) (by omega)]
      have hdd : (s.drop start).drop (chunkEnd s maxLen start - start)
          = s.drop (chunkEnd s maxLen start) := by
        rw [List.drop_drop]
        congr 1
        omega
      calc (s.drop start).take (chunkEnd s maxLen start - start) ++ s.drop (chunkEnd s maxLen start)
          = (s.drop start).take (chunkEnd s maxLen start - start)
            ++ (s.drop start).drop (chunkEnd s maxLen start - start) := by rw [hdd]
        _ = s.drop start := List.take_append_drop _ _
    · rename_i hge
      simp only [List.flatten_nil]
      exact (List.drop_eq_nil_iff.mpr (by omega)).symm

/-- Dropping the empty chunks does not change the concatenation. -/
theorem flatten_filter_nonempty (l : List (List Char)) :
    (l.filter (fun c => !c.isEmpty)).flatten = l.flatten := by
  induction l with
  | nil => rfl
  | cons a t ih =>
    by_cases ha : a.isEmpty
    · have hnil : a = [] := by simpa using ha
      simp [List.filter_cons, ha, hnil, ih]
    · simp [List.filter_cons, ha, ih]

/-- On an all-whitespace text every chunk the loop produces is empty. -/
theorem chunkLoop_all_ws (s : List Char) (maxLen : Nat)
    (hws : ∀ c ∈ s, jsWhitespace c = true) :
    ∀ fuel start c, c ∈ chunkLoop s maxLen start fuel → c = [] := by
  intro fuel
  induction fuel with
  | zero => intro start c hc; simp [chunkLoop] at hc
  | succ n ih =>
    intro start c hc
    simp only [chunkLoop] at hc
    split at hc
    · rcases List.mem_cons.mp hc with rfl | hmem
      · exact trimChars_eq_nil_of_all _
          (fun c hc => hws c (List.drop_subset _ _ (List.take_subset _ _ hc)))
      · exact ih _ _ hmem
    · simp at hc

/-- The character data of the joined chunks is the concatenation of the
list-level chunks. -/
theorem chunkText_join_data (s : String) (maxLen : Nat) :
    (String.join (chunkText s maxLen)).data = (chunkTextL s.data maxLen).flatten := by
  rw [String.data_join]
  unfold chunkText
  induction chunkTextL s.data maxLen with
  | nil => rfl
  | cons a t ih =>
    simp only [List.map_cons, List.flatten_cons, ih]

/-- Counterexample for C5 (claim: every chunk is at most `maxChunkChars`
long unless a single sentence alone exceeds it, and rejoining the chunks
with single spaces reproduces the sentence content).  For
`"a. bc. xx"` with `maxChunkChars = 5` every sentence is at most 5
characters yet the first chunk, `"a. bc."`, has 6; and for `"abcdef"`
with `maxChunkChars = 3` the space-rejoined chunks `"abc def"` differ
from the sentence content `"abcdef"` (the split lands mid-word). -/
theorem chunkText_claim_counterexample :
    ((∀ t ∈ specSentences "a. bc. xx", t.length ≤ 5) ∧
      ¬(∀ c ∈ chunkText "a. bc. xx" 5, c.length ≤ 5)) ∧
    String.intercalate " " (chunkText "abcdef" 3)
      ≠ String.intercalate " " (specSentences "abcdef") := by
  refine ⟨⟨by decide, by decide⟩, by decide⟩

/-- Claim C5 as amended: for `maxChunkChars ≥ 1` every chunk has length
at most `maxChunkChars + 1` (the overshoot of one occurs when the
character at the cut position is a period past the 0.6 threshold), and
on whitespace-free text concatenating the chunks directly — with no
separator re-inserted — reproduces the original text (in general the
loop cuts anywhere, including mid-word, and only boundary whitespace is
trimmed away). -/
theorem chunkText_bound_and_concat (s : String) (maxLen : Nat) (hm : 1 ≤ maxLen) :
    (∀ c ∈ chunkText s maxLen, c.length ≤ maxLen + 1) ∧
    ((∀ ch ∈ s.data, jsWhitespace ch = false) → String.join (chunkText s maxLen) = s) := by
  constructor
  · intro c hc
    unfold chunkText at hc
    obtain ⟨l, hl, rfl⟩ := List.mem_map.mp hc
    show l.length ≤ maxLen + 1
    unfold chunkTextL at hl
    split at hl
    · simp at hl
    · split at hl
      · rename_i h0 hle
        simp only [List.mem_singleton] at hl
        subst hl
        omega
      · exact chunkLoop_chunk_len _ _ _ _ _ (List.mem_filter.mp hl).1
  · intro hws
    apply String.ext
    rw [chunkText_join_data]
    unfold chunkTextL
    split
    · rename_i h0
      simp [List.length_eq_zero.mp h0]
    · split
      · simp
      · rename_i h0 hle
        rw [flatten_filter_nonempty,
          chunkLoop_flatten s.data maxLen hm hws s.data.length 0 (by omega)]
        exact List.drop_zero _

/-- Witness for C5 (amended) at `"abcdef"`, `maxChunkChars = 3`: both
chunks have length at most 4 and they concatenate back to the text. -/
theorem chunkText_bound_and_concat_witness :
    (∀ c ∈ chunkText "abcdef" 3, c.length ≤ 3 + 1) ∧
    String.join (chunkText "abcdef" 3) = "abcdef" := by
  have h := chunkText_bound_and_concat "abcdef" 3 (by decide)
  exact ⟨h.1, h.2 (by decide)⟩

/-- Counterexample for C8 (claim: on degenerate input the chunker
returns the original text as a single chunk).  The empty string and an
all-whitespace string longer than `maxChunkChars` both come back as the
EMPTY LIST, not as a singleton holding the original text. -/
theorem chunkText_degenerate_returns_empty :
    chunkText "" 350 = [] ∧ chunkText "" 350 ≠ [""] ∧
    chunkText "   " 1 = [] ∧ chunkText "   " 1 ≠ ["   "] := by
  exact ⟨rfl, by decide, rfl, by decide⟩

/-- Claim C8 as amended: degenerate input yields the empty chunk list —
the empty string maps to `[]` (part_002 line 62, `if (!s) return []`),
and an all-whitespace text longer than `maxChunkChars ≥ 1` also maps to
`[]` (every chunk trims to the empty string and `filter(Boolean)` drops
them all); no step falls back to returning the original text. -/
theorem chunkText_degenerate_behavior (s : String) (maxLen : Nat) :
    chunkText "" maxLen = [] ∧
    (1 ≤ maxLen → maxLen < s.length → (∀ c ∈ s.data, jsWhitespace c = true) →
      chunkText s maxLen = []) := by
  constructor
  · rfl
  · intro hm hlen hws
    unfold chunkText chunkTextL
    have hlen2 : s.length = s.data.length := rfl
    split
    · rename_i h0
      omega
    · split
      · rename_i h0 hle
        omega
      · rename_i h0 hle
        rw [List.filter_eq_nil_iff.mpr ?_]
        · rfl
        · intro a ha
          have hnil := chunkLoop_all_ws s.data maxLen hws _ _ _ ha
          subst hnil
          decide

/-- Witness for C8 (amended): the empty string with window 5, and two
spaces with `maxChunkChars = 1`, both chunk to the empty list. -/
theorem chunkText_degenerate_behavior_witness :
    chunkText "" 5 = [] ∧ chunkText "  " 1 = [] := by
  exact ⟨(chunkText_degenerate_behavior "x" 5).1,
    (chunkText_degenerate_behavior "  " 1).2 (by decide) (by decide) (by decide)⟩

/-- `pipeStep` preserves the invariant. -/
theorem pipeStep_inv (st : PipeState) (ev : PipeEvent) (h : pipeInv st) :
    pipeInv ((pipeStep st ev).1) := by
  obtain ⟨h1, h2⟩ := h
  cases ev with
  | press pt =>
    by_cases hc : pt = PressType.short ∧ st.processing = false
    · have hz : st.activeRuns = 0 := by
        by_contra hnz
        have hone : st.activeRuns = 1 := by omega
        have hp := h2.mpr hone
        rw [hc.2] at hp
        exact Bool.false_ne_true hp
      have hst : (pipeStep st (.press pt)).1 =
          { processing := true, activeRuns := st.activeRuns + 1 } := by
        simp [pipeStep, hc]
      rw [hst, hz]
      exact ⟨le_refl 1, by simp⟩
    · have hst : (pipeStep st (.press pt)).1 = st := by
        simp [pipeStep, hc]
      rw [hst]
      exact ⟨h1, h2⟩
  | runFinish =>
    by_cases hz : st.activeRuns = 0
    · have hst : (pipeStep st .runFinish).1 = st := by
        simp [pipeStep, hz]
      rw [hst]
      exact ⟨h1, h2⟩
    · have hst : (pipeStep st .runFinish).1 =
          { processing := false, activeRuns := st.activeRuns - 1 } := by
        simp [pipeStep, hz]
      rw [hst]
      show st.activeRuns - 1 ≤ 1 ∧ (false = true ↔ st.activeRuns - 1 = 1)
      refine ⟨by omega, ?_, ?_⟩
      · intro hh
        exact absurd hh (by simp)
      · intro hh
        exfalso
        omega

/-- The invariant holds in every reachable session state. -/
theorem pipeRun_inv (evs : List PipeEvent) : pipeInv (pipeRun evs) := by
  suffices h : ∀ st, pipeInv st →
      pipeInv (evs.foldl (fun st ev => (pipeStep st ev).1) st) by
    exact h pipeInit ⟨by simp [pipeInit], by simp [pipeInit]⟩
  induction evs with
  | nil => intro st h; exact h
  | cons e t ih => intro st h; exact ih _ (pipeStep_inv st e h)

/-- Claim C2: the button handler accepts a short press only when the
processing flag is false (any other press is ignored with no state
change and no queuing); on acceptance the flag is set and stays true
exactly while the accepted run executes — so along every event sequence
at most one pipeline run is active and runs never overlap — and the
handler clears the flag on every exit path (pipeline success, caught
pipeline error, and even a rejected apology speak). -/
theorem onButtonPress_processing_guard :
    (∀ evs : List PipeEvent, (pipeRun evs).activeRuns ≤ 1 ∧
      ((pipeRun evs).processing = true ↔ (pipeRun evs).activeRuns = 1)) ∧
    (∀ (st : PipeState) (pt : PressType),
      (pipeStep st (.press pt)).2 = true ↔ pt = PressType.short ∧ st.processing = false) ∧
    (∀ (st : PipeState) (pt : PressType),
      (pipeStep st (.press pt)).2 = false → (pipeStep st (.press pt)).1 = st) ∧
    (∀ (pt : PressType) (proc : Bool) (pipeline apology : Except String Unit),
      (onButtonPressRun pt proc pipeline apology).2.accepted = true →
        (pt = PressType.short ∧ proc = false) ∧
        (onButtonPressRun pt proc pipeline apology).1 = false) := by
  refine ⟨fun evs => pipeRun_inv evs, ?_, ?_, ?_⟩
  · intro st pt
    by_cases hc : pt = PressType.short ∧ st.processing = false
    · simp [pipeStep, hc]
    · simp [pipeStep, hc]
  · intro st pt hfalse
    by_cases hc : pt = PressType.short ∧ st.processing = false
    · rw [(by simp [pipeStep, hc] : (pipeStep st (.press pt)).2 = true)] at hfalse
      exact absurd hfalse (by simp)
    · simp [pipeStep, hc]
  · intro pt proc pipeline apology hacc
    cases pt with
    | long =>
      exact absurd hacc (by simp [onButtonPressRun])
    | short =>
      cases proc with
      | true => exact absurd hacc (by simp [onButtonPressRun])
      | false =>
        refine ⟨⟨rfl, rfl⟩, ?_⟩
        cases pipeline with
        | ok u => cases u; rfl
        | error e =>
          cases apology with
          | ok u => cases u; rfl
          | error a => rfl

/-- Witness for C2: a double press followed by a finish and another
press keeps the invariant, and an accepted run with a failing pipeline
still ends with the flag cleared. -/
theorem onButtonPress_processing_guard_witness :
    ((pipeRun [.press .short, .press .short, .runFinish, .press .short]).activeRuns ≤ 1 ∧
      ((pipeRun [.press .short, .press .short, .runFinish, .press .short]).processing = true ↔
        (pipeRun [.press .short, .press .short, .runFinish, .press .short]).activeRuns = 1)) ∧
    (onButtonPressRun .short false (.error "boom") (.ok ())).1 = false := by
  exact ⟨onButtonPress_processing_guard.1 _,
    (onButtonPress_processing_guard.2.2.2 .short false (.error "boom") (.ok ()) rfl).2⟩

/-- Counterexample for C7 (claim: a failure of the apology speak is
itself swallowed and cannot propagate out of the error-handling path).
With pipeline error "pipeline_boom" and a failing apology speak the
handler promise settles with the APOLOGY error — nothing catches it —
though the finally block still clears the flag. -/
theorem apology_failure_not_swallowed :
    (onButtonPressRun .short false (.error "pipeline_boom") (.error "apology_tts_failed")).2.result
      = .error "apology_tts_failed" ∧
    (onButtonPressRun .short false (.error "pipeline_boom") (.error "apology_tts_failed")).2.result
      ≠ .ok () ∧
    (onButtonPressRun .short false (.error "pipeline_boom") (.error "apology_tts_failed")).1
      = false := by
  exact ⟨rfl, fun hcontra => Except.noConfusion hcontra, rfl⟩

/-- Claim C7 as amended: when the pipeline run raises, the orchestrator
speaks the apology and the handler settles with the apology speak
outcome: the ORIGINAL pipeline error is swallowed (an apology success
resolves the handler), while an apology failure is not caught anywhere
and propagates out as the handler rejection; the finally-cleanup runs on
every such path, clearing the processing flag. -/
theorem onButtonPress_error_path (e : String) (apology : Except String Unit) :
    (onButtonPressRun .short false (.error e) apology).1 = false ∧
    (onButtonPressRun .short false (.error e) apology).2.result = apology ∧
    (onButtonPressRun .short false (.error e) apology).2.accepted = true := by
  cases apology with
  | ok u => cases u; exact ⟨rfl, rfl, rfl⟩
  | error a => exact ⟨rfl, rfl, rfl⟩

/-- Claim C1 is violated by the source (code bug): `withAudioQueue`
builds the chain promise `prev.then(() => next)` but never awaits
`prev` before invoking `fn()`, so with two operations submitted
back-to-back for the same user the second operation STARTS before the
first has completed — the executions overlap, while the function's own
comment (index.ts line 276) promises "Serialize audio for a user to
prevent overlaps".  The faithful event-loop run produces the trace
below, in which `opStart 2` precedes `opEnd 1`. -/
theorem withAudioQueue_ops_overlap :
    audioCodeTrace =
      [.queueEnter 1, .opStart 1, .queueEnter 2, .opStart 2,
        .opEnd 1, .queueExit 1, .opEnd 2, .queueExit 2] ∧
    audioCodeTrace.indexOf (.opStart 2) < audioCodeTrace.indexOf (.opEnd 1) ∧
    AudioEv.opStart 2 ∈ audioCodeTrace ∧ AudioEv.opEnd 1 ∈ audioCodeTrace := by
  have ht : audioCodeTrace =
      [.queueEnter 1, .opStart 1, .queueEnter 2, .opStart 2,
        .opEnd 1, .queueExit 1, .opEnd 2, .queueExit 2] := by rfl
  refine ⟨ht, ?_, ?_, ?_⟩ <;> rw [ht] <;> decide
